import Mathlib

/-!
Shallow embedding of `kidney-train.py` (a single-file U-Net training
script) and proofs about the claims of its specification.

Tensors are modelled as nested lists of rationals: a rank-3 tensor
`(N, H, W)` is `List (List (List ℚ))`, a rank-4 tensor `(N, H, W, C)` is
`List (List (List (List ℚ)))`.  TensorFlow reductions, reshapes and
elementwise operations are translated to the corresponding pure list
operations; the float constant `1e-7` becomes the exact rational
`1 / 10^7`.
-/

namespace Kidney

/-- Rank-3 tensor `(N, H, W)`: a batch of single-channel images. -/
abbrev Tensor3 : Type := List (List (List ℚ))

/-- Rank-4 tensor `(N, H, W, C)`: a batch of multi-channel images,
the innermost list indexed by channel. -/
abbrev Tensor4 : Type := List (List (List (List ℚ)))

/-- `tf.reduce_mean` over a vector: sum divided by length
(division by zero yields `0` in `ℚ`, matching use on nonempty vectors). -/
def reduceMean (v : List ℚ) : ℚ := v.sum / v.length

/-- Elementwise product followed by `tf.reduce_sum` along `axis=1`:
the dot product of two equally long rows. -/
def dotRow (a b : List ℚ) : ℚ := (List.zipWith (fun x y => x * y) a b).sum

/-- The float literal `1e-7` of the script, as an exact rational. -/
def eps : ℚ := 1 / 10000000

/-- Flatten one batch element `(H, W)` to a row of length `H*W`,
modelling `tf.reshape(t, [-1, H * W])` restricted to that element. -/
def flat (img : List (List ℚ)) : List ℚ := img.flatten

/-- `IOU_(y_pred, y_true)` from the script:

    pred_flat = tf.reshape(y_pred, [-1, H * W])
    true_flat = tf.reshape(y_true, [-1, H * W])
    intersection = 2 * tf.reduce_sum(pred_flat * true_flat, axis=1) + 1e-7
    denominator = tf.reduce_sum(pred_flat, axis=1) + tf.reduce_sum(true_flat, axis=1) + 1e-7
    return tf.reduce_mean(intersection / denominator)

Both arguments hold `N` images; the reshape flattens each image. -/
def IOU_ (y_pred y_true : Tensor3) : ℚ :=
  reduceMean (List.zipWith
    (fun p t => (2 * dotRow (flat p) (flat t) + eps) /
                ((flat p).sum + (flat t).sum + eps))
    y_pred y_true)

/-- `y_pred.shape[-1]`: the channel count of a rank-4 tensor, read off
its first pixel. -/
def numChannels (y_pred : Tensor4) : Nat :=
  (((y_pred.headD []).headD []).headD []).length

/-- `y_pred[:, :, :, cc]`: select channel `cc` of a rank-4 tensor. -/
def sliceChannel (y_pred : Tensor4) (cc : Nat) : Tensor3 :=
  y_pred.map (fun n => n.map (fun h => h.map (fun px => px.getD cc 0)))

/-- `tf.cast(tf.equal(y_true, cc), tf.float32)`: the indicator image of
the pixels labelled `cc` (the cast to float happens inside `IOU_`). -/
def eqIndicator (y_true : Tensor3) (cc : Nat) : Tensor3 :=
  y_true.map (fun n => n.map (fun h => h.map
    (fun v => if v = (cc : ℚ) then (1 : ℚ) else 0)))

/-- `sparse_iou(y_pred, y_true)` from the script: the mean over channels
`cc < y_pred.shape[-1]` of `IOU_(y_pred[:,:,:,cc], tf.equal(y_true, cc))`.
`y_true` is the `(N, H, W, 1)` label tensor with its unit channel
dimension flattened away (as the `tf.reshape` inside `IOU_` does). -/
def sparse_iou (y_pred : Tensor4) (y_true : Tensor3) : ℚ :=
  reduceMean ((List.range (numChannels y_pred)).map
    (fun cc => IOU_ (sliceChannel y_pred cc) (eqIndicator y_true cc)))

/-- The loss built by `make_train_op`: `loss = -sparse_iou(y_pred, y_true)`
(the quantity handed to `optim.minimize`). -/
def make_train_op_loss (y_pred : Tensor4) (y_true : Tensor3) : ℚ :=
  - sparse_iou y_pred y_true

/-- `tf.Print` is the identity on the value it forwards. -/
def tfPrint (x : ℚ) : ℚ := x

/-- The evaluation metric of `main`:
`IOU_op = sparse_iou(pred, y); IOU_op = tf.Print(IOU_op, ...)`. -/
def main_IOU_op (pred : Tensor4) (y : Tensor3) : ℚ :=
  tfPrint (sparse_iou pred y)

/-! Spec-side definitions for the intersection-over-union claim, written
from the spec's words ("area of intersection" / "area of union" of the
predicted and ground-truth masks), to be compared with `IOU_`. -/

/-- Area of the intersection of two masks: the number of positions where
both are on. -/
def interArea (p t : List ℚ) : ℚ :=
  (List.zipWith (fun a b => if a ≠ 0 ∧ b ≠ 0 then (1 : ℚ) else 0) p t).sum

/-- Area of the union of two masks: the number of positions where at
least one is on. -/
def unionArea (p t : List ℚ) : ℚ :=
  (List.zipWith (fun a b => if a ≠ 0 ∨ b ≠ 0 then (1 : ℚ) else 0) p t).sum

/-- Area of a single mask: the number of positions where it is on. -/
def maskArea (p : List ℚ) : ℚ :=
  (p.map (fun a => if a ≠ 0 then (1 : ℚ) else 0)).sum

/-- The quantity the spec describes: the mean over the batch of
(area of intersection) / (area of union) of the two masks. -/
def spec_batch_mean_IOU (y_pred y_true : Tensor3) : ℚ :=
  reduceMean (List.zipWith
    (fun p t => interArea (flat p) (flat t) / unionArea (flat p) (flat t))
    y_pred y_true)

/-- A rank-3 tensor is a binary mask batch when every entry is 0 or 1. -/
def IsBinary (t : Tensor3) : Prop :=
  ∀ n ∈ t, ∀ h ∈ n, ∀ v ∈ h, v = 0 ∨ v = 1

/-- On binary rows, the elementwise product sums to the intersection
area. -/
theorem dotRow_eq_interArea (p : List ℚ) :
    ∀ t : List ℚ, (∀ v ∈ p, v = 0 ∨ v = 1) → (∀ v ∈ t, v = 0 ∨ v = 1) →
      dotRow p t = interArea p t := by
  induction p with
  | nil => intro t _ _; simp [dotRow, interArea]
  | cons a p ih =>
    intro t hp ht
    cases t with
    | nil => simp [dotRow, interArea]
    | cons b t =>
      have ha := hp a (List.mem_cons_self a p)
      have hb := ht b (List.mem_cons_self b t)
      have hrest := ih t (fun v hv => hp v (List.mem_cons_of_mem a hv))
        (fun v hv => ht v (List.mem_cons_of_mem b hv))
      simp only [dotRow, interArea, List.zipWith_cons_cons, List.sum_cons] at hrest ⊢
      rw [show ((List.zipWith (fun x y => x * y) p t).sum =
        (List.zipWith (fun a b => if a ≠ 0 ∧ b ≠ 0 then (1 : ℚ) else 0) p t).sum)
        from hrest]
      rcases ha with ha | ha <;> rcases hb with hb | hb <;> simp [ha, hb]

/-- On a binary row, the sum of the entries is the mask area. -/
theorem sum_eq_maskArea (p : List ℚ) (hp : ∀ v ∈ p, v = 0 ∨ v = 1) :
    p.sum = maskArea p := by
  induction p with
  | nil => simp [maskArea]
  | cons a p ih =>
    have ha := hp a (List.mem_cons_self a p)
    have hrest := ih (fun v hv => hp v (List.mem_cons_of_mem a hv))
    simp only [maskArea, List.map_cons, List.sum_cons] at hrest ⊢
    rw [hrest]
    rcases ha with ha | ha <;> simp [ha]

/-- Entries of a flattened binary image are 0 or 1. -/
theorem flat_binary (n : List (List ℚ)) (h : ∀ r ∈ n, ∀ v ∈ r, v = 0 ∨ v = 1) :
    ∀ v ∈ flat n, v = 0 ∨ v = 1 := by
  intro v hv
  rcases List.mem_flatten.mp hv with ⟨r, hr, hvr⟩
  exact h r hr v hvr

/-- On binary batches, the per-image quotients computed by `IOU_`
coincide with the smoothed Dice quotients built from set-theoretic
intersection and mask areas. -/
theorem zipWith_dice_eq (ps : Tensor3) :
    ∀ ts : Tensor3, IsBinary ps → IsBinary ts →
      List.zipWith
        (fun p t => (2 * dotRow (flat p) (flat t) + eps) /
          ((flat p).sum + (flat t).sum + eps)) ps ts =
      List.zipWith
        (fun p t => (2 * interArea (flat p) (flat t) + eps) /
          (maskArea (flat p) + maskArea (flat t) + eps)) ps ts := by
  induction ps with
  | nil => intro ts _ _; simp
  | cons p ps ih =>
    intro ts hp ht
    cases ts with
    | nil => simp
    | cons t ts =>
      have hpf := flat_binary p (hp p (List.mem_cons_self p ps))
      have htf := flat_binary t (ht t (List.mem_cons_self t ts))
      simp only [List.zipWith_cons_cons]
      rw [dotRow_eq_interArea (flat p) (flat t) hpf htf,
        sum_eq_maskArea (flat p) hpf, sum_eq_maskArea (flat t) htf,
        ih ts (fun n hn => hp n (List.mem_cons_of_mem p hn))
          (fun n hn => ht n (List.mem_cons_of_mem t hn))]

/-! ### Graph embedding of the network-building functions

The TensorFlow graph-construction calls of the script are embedded as an
abstract syntax tree of the operations actually used.  `T.concat` models
`tf.concat(..., axis=-1)` (channel-axis concatenation) and `T.resize_nn`
models `tf.image.resize_nearest_neighbor`; node names record the `name=`
arguments (the `variable_scope` prefix is dropped — it only namespaces
variables). -/

/-- The activation functions the script mentions. -/
inductive ActFn where
  | relu
  | sigmoid
  | softmax
deriving DecidableEq

/-- Graph nodes.  `conv2d` records filters, kernel size, optional fused
activation and whether `padding='same'`; `batch_norm` records the
`training` tensor; `max_pool` records pool size and strides. -/
inductive T where
  | input (h w c : Nat)
  | rescale (x : T)
  | conv2d (x : T) (filters kh kw : Nat) (act : Option ActFn) (same : Bool) (nm : String)
  | batch_norm (x : T) (training : Bool) (nm : String)
  | actApp (f : ActFn) (x : T) (nm : String)
  | max_pool (x : T) (ph pw sh sw : Nat) (nm : String)
  | resize_nn (x : T) (th tw : Nat) (nm : String)
  | concat (a b : T) (nm : String)
deriving DecidableEq

/-- Static shape `(H, W, C)` of a node, as `tensor.get_shape()` reports
it: `'same'` convolutions and elementwise ops preserve `(H, W)`,
`'valid'` windows shrink by `kernel - 1` before striding, resize sets the
target size, concat adds channels (taking the spatial size of its first
argument). -/
def shape : T → Nat × Nat × Nat
  | .input h w c => (h, w, c)
  | .rescale x => shape x
  | .conv2d x f kh kw _ same _ =>
      if same then ((shape x).1, (shape x).2.1, f)
      else ((shape x).1 - kh + 1, (shape x).2.1 - kw + 1, f)
  | .batch_norm x _ _ => shape x
  | .actApp _ x _ => shape x
  | .max_pool x ph pw sh sw _ =>
      (((shape x).1 - ph) / sh + 1, ((shape x).2.1 - pw) / sw + 1, (shape x).2.2)
  | .resize_nn x th tw _ => (th, tw, (shape x).2.2)
  | .concat a b _ => ((shape a).1, (shape a).2.1, (shape a).2.2 + (shape b).2.2)

/-- Whether the graph builds without error: every `tf.concat` requires
its two inputs to agree on height and width, and every pooling window
must fit inside its input. -/
def wellFormed : T → Bool
  | .input _ _ _ => true
  | .rescale x => wellFormed x
  | .conv2d x _ _ _ _ _ _ => wellFormed x
  | .batch_norm x _ _ => wellFormed x
  | .actApp _ x _ => wellFormed x
  | .max_pool x ph pw _ _ _ =>
      wellFormed x && decide (ph ≤ (shape x).1) && decide (pw ≤ (shape x).2.1)
  | .resize_nn x _ _ _ => wellFormed x
  | .concat a b _ =>
      wellFormed a && wellFormed b &&
      ((shape a).1 == (shape b).1) && ((shape a).2.1 == (shape b).2.1)

/-- The `for i, F in enumerate(n_filters)` loop of `conv_conv_pool`:
each filter count adds `conv2d` (3x3, `'same'`, no fused activation),
then `batch_normalization`, then the activation, with the names the
script formats from `i + 1` and the block name. -/
def convLayers (net : T) (n_filters : List Nat) (training : Bool)
    (nm : String) (act : ActFn) (i : Nat) : T :=
  match n_filters with
  | [] => net
  | F :: rest =>
      convLayers
        (T.actApp act
          (T.batch_norm
            (T.conv2d net F 3 3 none true ("conv_" ++ toString (i + 1)))
            training ("bn_" ++ toString (i + 1)))
          ("relu" ++ nm ++ "_" ++ toString (i + 1)))
        rest training nm act (i + 1)

/-- `conv_conv_pool(input_, n_filters, training, name, pool, activation)`:
the conv/BN/activation layers, then — when `pool` — additionally a
`(2, 2)` max-pool with strides `(2, 2)`.  The `pool=False` call returns
one tensor (`Sum.inl`), the `pool=True` call a pair (`Sum.inr`). -/
def conv_conv_pool (input_ : T) (n_filters : List Nat) (training : Bool)
    (nm : String) (pool : Bool) (act : ActFn) : T ⊕ (T × T) :=
  match pool with
  | false => Sum.inl (convLayers input_ n_filters training nm act 0)
  | true =>
      Sum.inr (convLayers input_ n_filters training nm act 0,
        T.max_pool (convLayers input_ n_filters training nm act 0) 2 2 2 2 ("pool_" ++ nm))

/-- Projection for the `pool=True` unpacking `conv, pool = ...`. -/
def getP : T ⊕ (T × T) → T × T
  | Sum.inl n => (n, n)
  | Sum.inr p => p

/-- Projection for the `pool=False` result `net = ...`. -/
def getN : T ⊕ (T × T) → T
  | Sum.inl n => n
  | Sum.inr p => p.1

/-- `upsampling_2D(tensor, name, size=(2, 2))`: reads `H, W` from the
static shape and resizes (nearest neighbor) to `(H * 2, W * 2)`. -/
def upsampling_2D (tensor : T) (nm : String) : T :=
  T.resize_nn tensor ((shape tensor).1 * 2) ((shape tensor).2.1 * 2) ("upsample_" ++ nm)

/-- `upsample_concat(inputA, input_B, name)`: upsample `inputA` and
concatenate with `input_B` along the channel axis. -/
def upsample_concat (inputA input_B : T) (nm : String) : T :=
  T.concat (upsampling_2D inputA nm) input_B ("concat_" ++ nm)

/-- `make_unet(X, training, activation, classes)` translated clause by
clause from the script. -/
def make_unet (X : T) (training : Bool) (activation : ActFn) (classes : Nat) : T :=
  let net := T.conv2d (T.rescale X) 3 1 1 none false "color_space_adjust"
  let c1 := getP (conv_conv_pool net [8, 8] training "1" true .relu)
  let c2 := getP (conv_conv_pool c1.2 [16, 16] training "2" true .relu)
  let c3 := getP (conv_conv_pool c2.2 [32, 32] training "3" true .relu)
  let c4 := getP (conv_conv_pool c3.2 [64, 64] training "4" true .relu)
  let conv5 := getN (conv_conv_pool c4.2 [128, 128] training "5" false .relu)
  let up6 := upsample_concat conv5 c4.1 "6"
  let conv6 := getN (conv_conv_pool up6 [64, 64] training "6" false .relu)
  let up7 := upsample_concat conv6 c3.1 "7"
  let conv7 := getN (conv_conv_pool up7 [32, 32] training "7" false .relu)
  let up8 := upsample_concat conv7 c2.1 "8"
  let conv8 := getN (conv_conv_pool up8 [16, 16] training "8" false .relu)
  let up9 := upsample_concat conv8 c1.1 "9"
  let conv9 := getN (conv_conv_pool up9 [8, 8] training "9" false .relu)
  T.conv2d conv9 classes 1 1 (some activation) true "final"

/-! ### Graph analysis helpers and named pieces of the U-Net -/

/-- Walk the decoder spine of a graph (through unary nodes and the first
argument of every concat) and collect the second argument of each
concat — the skip connections — deepest concat first. -/
def spineSkips : T → List T
  | .input _ _ _ => []
  | .rescale x => spineSkips x
  | .conv2d x _ _ _ _ _ _ => spineSkips x
  | .batch_norm x _ _ => spineSkips x
  | .actApp _ x _ => spineSkips x
  | .max_pool x _ _ _ _ _ => spineSkips x
  | .resize_nn x _ _ _ => spineSkips x
  | .concat a b _ => spineSkips a ++ [b]

/-- Walk the decoder spine and collect every resize node as
`(its input, target height, target width)`, deepest first. -/
def spineUps : T → List (T × Nat × Nat)
  | .input _ _ _ => []
  | .rescale x => spineUps x
  | .conv2d x _ _ _ _ _ _ => spineUps x
  | .batch_norm x _ _ => spineUps x
  | .actApp _ x _ => spineUps x
  | .max_pool x _ _ _ _ _ => spineUps x
  | .resize_nn x th tw _ => spineUps x ++ [(x, th, tw)]
  | .concat a _ _ => spineUps a

/-- Walk the decoder spine and record, for each concat, whether its
first argument is a nearest-neighbor resize node. -/
def spineConcatOfResize : T → List Bool
  | .input _ _ _ => []
  | .rescale x => spineConcatOfResize x
  | .conv2d x _ _ _ _ _ _ => spineConcatOfResize x
  | .batch_norm x _ _ => spineConcatOfResize x
  | .actApp _ x _ => spineConcatOfResize x
  | .max_pool x _ _ _ _ _ => spineConcatOfResize x
  | .resize_nn x _ _ _ => spineConcatOfResize x
  | .concat a _ _ =>
      spineConcatOfResize a ++ [match a with | .resize_nn _ _ _ _ => true | _ => false]

/-- The `color_space_adjust` input stage of `make_unet`. -/
def unet_net (X : T) : T :=
  T.conv2d (T.rescale X) 3 1 1 none false "color_space_adjust"

/-- Contracting block 1, `conv1, pool1 = conv_conv_pool(net, [8, 8], ...)`. -/
def unet_c1 (X : T) (training : Bool) : T × T :=
  getP (conv_conv_pool (unet_net X) [8, 8] training "1" true .relu)

/-- Contracting block 2, fed by `pool1`. -/
def unet_c2 (X : T) (training : Bool) : T × T :=
  getP (conv_conv_pool (unet_c1 X training).2 [16, 16] training "2" true .relu)

/-- Contracting block 3, fed by `pool2`. -/
def unet_c3 (X : T) (training : Bool) : T × T :=
  getP (conv_conv_pool (unet_c2 X training).2 [32, 32] training "3" true .relu)

/-- Contracting block 4, fed by `pool3`. -/
def unet_c4 (X : T) (training : Bool) : T × T :=
  getP (conv_conv_pool (unet_c3 X training).2 [64, 64] training "4" true .relu)

/-- Bottleneck block, `conv5 = conv_conv_pool(pool4, [128, 128], pool=False)`. -/
def unet_conv5 (X : T) (training : Bool) : T :=
  getN (conv_conv_pool (unet_c4 X training).2 [128, 128] training "5" false .relu)

/-- Decoder block 6: upsample-concat with `conv4`, then convs. -/
def unet_conv6 (X : T) (training : Bool) : T :=
  getN (conv_conv_pool (upsample_concat (unet_conv5 X training) (unet_c4 X training).1 "6")
    [64, 64] training "6" false .relu)

/-- Decoder block 7: upsample-concat with `conv3`, then convs. -/
def unet_conv7 (X : T) (training : Bool) : T :=
  getN (conv_conv_pool (upsample_concat (unet_conv6 X training) (unet_c3 X training).1 "7")
    [32, 32] training "7" false .relu)

/-- Decoder block 8: upsample-concat with `conv2`, then convs. -/
def unet_conv8 (X : T) (training : Bool) : T :=
  getN (conv_conv_pool (upsample_concat (unet_conv7 X training) (unet_c2 X training).1 "8")
    [16, 16] training "8" false .relu)

/-- The activation `main` selects:
`softmax` when `flags.channels > 1`, else `sigmoid`. -/
def main_activation (channels : Nat) : ActFn :=
  if 1 < channels then ActFn.softmax else ActFn.sigmoid

/-- The prediction graph `main` builds: `make_unet` on the
`(height, w, 3)` placeholder `X`, with the selected activation and
`classes = flags.channels`; `mode` is the training placeholder. -/
def main_pred (height w channels : Nat) (mode : Bool) : T :=
  make_unet (T.input height w 3) mode (main_activation channels) channels

/-! ### Shape and well-formedness algebra for the U-Net components -/

/-- A two-layer conv block preserves height and width and outputs the
second filter count as channels. -/
theorem shape_convLayers2 (net : T) (tr : Bool) (nm : String) (a : ActFn) (i F1 F2 : Nat) :
    shape (convLayers net [F1, F2] tr nm a i) = ((shape net).1, (shape net).2.1, F2) := rfl

/-- A two-layer conv block is well-formed exactly when its input is. -/
theorem wf_convLayers2 (net : T) (tr : Bool) (nm : String) (a : ActFn) (i F1 F2 : Nat) :
    wellFormed (convLayers net [F1, F2] tr nm a i) = wellFormed net := rfl

/-- Shape of the 2x2 stride-2 max-pool. -/
theorem shape_pool (x : T) (nm : String) :
    shape (T.max_pool x 2 2 2 2 nm) =
      (((shape x).1 - 2) / 2 + 1, ((shape x).2.1 - 2) / 2 + 1, (shape x).2.2) := rfl

/-- Well-formedness of the 2x2 stride-2 max-pool. -/
theorem wf_pool (x : T) (nm : String) :
    wellFormed (T.max_pool x 2 2 2 2 nm) =
      (wellFormed x && decide (2 ≤ (shape x).1) && decide (2 ≤ (shape x).2.1)) := rfl

/-- Shape of an upsample-concat step. -/
theorem shape_up_concat (a b : T) (nm : String) :
    shape (upsample_concat a b nm) =
      ((shape a).1 * 2, (shape a).2.1 * 2, (shape a).2.2 + (shape b).2.2) := rfl

/-- Well-formedness of an upsample-concat step: both inputs well-formed
and the doubled spatial size of the first matches the second. -/
theorem wf_up_concat (a b : T) (nm : String) :
    wellFormed (upsample_concat a b nm) =
      (wellFormed a && wellFormed b && ((shape a).1 * 2 == (shape b).1) &&
        ((shape a).2.1 * 2 == (shape b).2.1)) := rfl

/-- Shape of a 1x1 `'same'` convolution. -/
theorem shape_conv_same (x : T) (f : Nat) (a' : Option ActFn) (nm : String) :
    shape (T.conv2d x f 1 1 a' true nm) = ((shape x).1, (shape x).2.1, f) := rfl

/-- Convolutions are always well-formed when their input is. -/
theorem wf_conv (x : T) (f kh kw : Nat) (a' : Option ActFn) (s : Bool) (nm : String) :
    wellFormed (T.conv2d x f kh kw a' s nm) = wellFormed x := rfl

/-! ### The image-augmentation pipeline

A single image is an `(H, W, C)` value: rows of pixels, each pixel a
list of channel values.  The TensorFlow随random ops take their sampled
randomness as explicit arguments: each `random_flip_*` takes the sampled
flip bit, `random_brightness` the sampled delta, and `random_hue` is an
arbitrary image transform parameter (its RGB/HSV arithmetic is
irrelevant to the claims). -/

/-- A single `(H, W, C)` image. -/
abbrev Img : Type := List (List (List ℚ))

/-- `tf.concat([image, mask], axis=-1)`: concatenate per pixel. -/
def tf_concat_channels (image mask : Img) : Img :=
  List.zipWith (fun r s => List.zipWith (fun a b => a ++ b) r s) image mask

/-- `tf.image.random_flip_left_right`, given the sampled flip bit:
reverse each row. -/
def random_flip_left_right (img : Img) (flip : Bool) : Img :=
  if flip then img.map List.reverse else img

/-- `tf.image.random_flip_up_down`, given the sampled flip bit:
reverse the row order. -/
def random_flip_up_down (img : Img) (flip : Bool) : Img :=
  if flip then img.reverse else img

/-- `tf.image.random_brightness(image, 0.7)`, given the sampled delta:
add it to every channel value. -/
def random_brightness (img : Img) (delta : ℚ) : Img :=
  img.map (fun r => r.map (fun p => p.map (fun v => v + delta)))

/-- `t[:, :, :-1]`: all but the last channel of every pixel. -/
def sliceImage (t : Img) : Img :=
  t.map (fun r => r.map (fun p => p.dropLast))

/-- `t[:, :, -1:]`: the last channel of every pixel. -/
def sliceMask (t : Img) : Img :=
  t.map (fun r => r.map (fun p => p.drop (p.length - 1)))

set_option linter.unusedVariables false in
/-- `image_augmentation(image, mask)` from the script, with the sampled
randomness explicit.  Note the source computes the left-right flip but
applies the up-down flip to `concat_image`, not to the left-right-flipped
tensor, so the second binding shadows and discards the first. -/
def image_augmentation (random_hue : Img → ℚ → Img) (image mask : Img)
    (flip_lr flip_ud : Bool) (delta_b delta_h : ℚ) : Img × Img :=
  let concat_image := tf_concat_channels image mask
  let maybe_flipped := random_flip_left_right concat_image flip_lr
  let maybe_flipped := random_flip_up_down concat_image flip_ud
  let image := sliceImage maybe_flipped
  let mask := sliceMask maybe_flipped
  let image := random_brightness image delta_b
  let image := random_hue image delta_h
  (image, mask)

/-- Rows of `image` and `mask` are aligned and the mask has one channel:
the two have the same number of rows, matching rows have the same
length, and every mask pixel is a single channel value. -/
def Aligned (image mask : Img) : Prop :=
  List.Forall₂ (fun r s => r.length = s.length) image mask ∧
  ∀ r ∈ mask, ∀ p ∈ r, p.length = 1

/-- Pixel row: dropping the last channel of each concatenated pixel
recovers the image row, when every mask pixel has one channel. -/
theorem row_slice_image (r : List (List ℚ)) :
    ∀ s : List (List ℚ), r.length = s.length → (∀ p ∈ s, p.length = 1) →
      List.map (fun p => p.dropLast) (List.zipWith (fun a b => a ++ b) r s) = r := by
  induction r with
  | nil => intro s _ _; rfl
  | cons a as ih =>
    intro s hlen hone
    cases s with
    | nil => simp at hlen
    | cons b bs =>
      rcases List.length_eq_one.mp (hone b (List.mem_cons_self b bs)) with ⟨x, hx⟩
      subst hx
      simp only [List.zipWith_cons_cons, List.map_cons]
      congr 1
      · simp
      · exact ih bs (by simpa using hlen)
          (fun p hp => hone p (List.mem_cons_of_mem _ hp))

/-- Pixel row: keeping the last channel of each concatenated pixel
recovers the mask row, when every mask pixel has one channel. -/
theorem row_slice_mask (r : List (List ℚ)) :
    ∀ s : List (List ℚ), r.length = s.length → (∀ p ∈ s, p.length = 1) →
      List.map (fun p => p.drop (p.length - 1))
        (List.zipWith (fun a b => a ++ b) r s) = s := by
  induction r with
  | nil =>
    intro s hlen _
    cases s with
    | nil => rfl
    | cons b bs => simp at hlen
  | cons a as ih =>
    intro s hlen hone
    cases s with
    | nil => simp at hlen
    | cons b bs =>
      rcases List.length_eq_one.mp (hone b (List.mem_cons_self b bs)) with ⟨x, hx⟩
      subst hx
      simp only [List.zipWith_cons_cons, List.map_cons]
      congr 1
      · have hl : (a ++ [x]).length - 1 = a.length := by simp
        rw [hl, List.drop_left]
      · exact ih bs (by simpa using hlen)
          (fun p hp => hone p (List.mem_cons_of_mem _ hp))

/-- Slicing the image part back out of a pixelwise concatenation. -/
theorem sliceImage_concat (image : Img) :
    ∀ mask : Img, List.Forall₂ (fun r s => r.length = s.length) image mask →
      (∀ r ∈ mask, ∀ p ∈ r, p.length = 1) →
      sliceImage (tf_concat_channels image mask) = image := by
  induction image with
  | nil => intro mask hf _; cases hf; rfl
  | cons r rs ih =>
    intro mask hf hone
    cases mask with
    | nil => cases hf
    | cons s ss =>
      rcases List.forall₂_cons.mp hf with ⟨hlen, hrest⟩
      simp only [tf_concat_channels, sliceImage, List.zipWith_cons_cons, List.map_cons]
      congr 1
      · exact row_slice_image r s hlen (hone s (List.mem_cons_self s ss))
      · exact ih ss hrest (fun t ht => hone t (List.mem_cons_of_mem s ht))

/-- Slicing the mask part back out of a pixelwise concatenation. -/
theorem sliceMask_concat (image : Img) :
    ∀ mask : Img, List.Forall₂ (fun r s => r.length = s.length) image mask →
      (∀ r ∈ mask, ∀ p ∈ r, p.length = 1) →
      sliceMask (tf_concat_channels image mask) = mask := by
  induction image with
  | nil => intro mask hf _; cases hf; rfl
  | cons r rs ih =>
    intro mask hf hone
    cases mask with
    | nil => cases hf
    | cons s ss =>
      rcases List.forall₂_cons.mp hf with ⟨hlen, hrest⟩
      simp only [tf_concat_channels, sliceMask, List.zipWith_cons_cons, List.map_cons]
      congr 1
      · exact row_slice_mask r s hlen (hone s (List.mem_cons_self s ss))
      · exact ih ss hrest (fun t ht => hone t (List.mem_cons_of_mem s ht))

/-- Channel slicing commutes with the up-down flip. -/
theorem sliceImage_flip_ud (t : Img) (flip : Bool) :
    sliceImage (random_flip_up_down t flip) =
      random_flip_up_down (sliceImage t) flip := by
  cases flip <;> simp [sliceImage, random_flip_up_down]

/-- Channel slicing commutes with the up-down flip (mask part). -/
theorem sliceMask_flip_ud (t : Img) (flip : Bool) :
    sliceMask (random_flip_up_down t flip) =
      random_flip_up_down (sliceMask t) flip := by
  cases flip <;> simp [sliceMask, random_flip_up_down]

/-! ### The checkpoint-directory branch of `main`

    if os.path.exists(flags.ckdir) and tf.train.checkpoint_exists(flags.ckdir):
        latest_check_point = tf.train.latest_checkpoint(flags.ckdir)
        if latest_check_point is not None:
            saver.restore(sess, latest_check_point)
    else:
        try:
            os.rmdir(flags.ckdir)
        except FileNotFoundError:
            pass
        except OSError:
            pass
        os.mkdir(flags.ckdir)
-/

/-- The exceptions the file-system calls of the branch can raise. -/
inductive Exc where
  | fileNotFound
  | osError
  | fileExists
deriving DecidableEq

/-- Observable file-system state around the checkpoint directory. -/
structure CkState where
  dirExists : Bool
  dirEmpty : Bool
  ckpt : Bool
  latest : Option String
deriving DecidableEq

/-- `os.rmdir`: `FileNotFoundError` when the directory is absent,
`OSError` when it is non-empty, otherwise removes it. -/
def rmdir (s : CkState) : Except Exc CkState :=
  if s.dirExists = false then .error .fileNotFound
  else if s.dirEmpty = false then .error .osError
  else .ok { s with dirExists := false }

/-- `os.mkdir`: `FileExistsError` when the directory is present,
otherwise creates it empty. -/
def mkdir (s : CkState) : Except Exc CkState :=
  if s.dirExists then .error .fileExists
  else .ok { s with dirExists := true, dirEmpty := true }

/-- The checkpoint branch: returns `some path` when it restores from a
checkpoint, `none` when it falls through or rebuilds the directory; any
uncaught exception propagates as `.error`.  Only `FileNotFoundError` and
`OSError` from `os.rmdir` are caught (and ignored). -/
def checkpoint_branch (s : CkState) : Except Exc (Option String × CkState) :=
  if s.dirExists && s.ckpt then
    match s.latest with
    | some p => .ok (some p, s)
    | none => .ok (none, s)
  else
    let afterTry : Except Exc CkState :=
      match rmdir s with
      | .ok s1 => .ok s1
      | .error .fileNotFound => .ok s
      | .error .osError => .ok s
      | .error e => .error e
    match afterTry with
    | .error e => .error e
    | .ok s1 =>
      match mkdir s1 with
      | .error e => .error e
      | .ok s2 => .ok (none, s2)

/-! ### The CSV input pipeline of `get_image_mask`

Strings are modelled as `List Char`; file contents as `List Nat` (byte
lists); the image decoder as a function from contents and requested
channel count to an image.  `tf.cast(.., tf.float32)` and `set_shape`
are identities in this model. -/

/-- `tf.TextLineReader(skip_header_lines=1)` over a queued CSV file:
the records produced are all lines but the first. -/
def csvRecords (lines : List (List Char)) : List (List Char) := lines.drop 1

/-- Split a line at commas (the separator of `tf.decode_csv`). -/
def splitFields : List Char → List (List Char)
  | [] => [[]]
  | c :: cs =>
    if c = ',' then [] :: splitFields cs
    else
      match splitFields cs with
      | [] => [[c]]
      | f :: fs => (c :: f) :: fs

/-- `tf.decode_csv(csv_content, record_defaults=[[""], [""]])`: the line
must hold exactly two fields; an empty field falls back to its default
(here the empty string). -/
def decode_csv2 (line d1 d2 : List Char) : Option (List Char × List Char) :=
  match splitFields line with
  | [a, b] => some (if a = [] then d1 else a, if b = [] then d2 else b)
  | _ => none

/-- `get_image_mask` on one CSV record: decode the two paths, prefix
both with `data_root` (`tf.add` on strings is concatenation), read both
files, decode the image with 3 channels and the mask with 1 channel,
then optionally augment. -/
def get_image_mask (read_file : List Char → List Nat)
    (img_decoder : List Nat → Nat → Img) (data_root : List Char)
    (augmentation : Bool) (random_hue : Img → ℚ → Img)
    (flip_lr flip_ud : Bool) (delta_b delta_h : ℚ)
    (csv_content : List Char) : Option (Img × Img) :=
  match decode_csv2 csv_content [] [] with
  | none => none
  | some (ip, mp) =>
    let image_path := data_root ++ ip
    let mask_path := data_root ++ mp
    let image := img_decoder (read_file image_path) 3
    let mask := img_decoder (read_file mask_path) 1
    if augmentation then
      some (image_augmentation random_hue image mask flip_lr flip_ud delta_b delta_h)
    else
      some (image, mask)

/-- A comma-free field followed by a comma and a comma-free rest splits
off as one field. -/
theorem splitFields_append (a : List Char) :
    ∀ rest : List Char, (',' ∉ a) →
      splitFields (a ++ ',' :: rest) = a :: splitFields rest := by
  induction a with
  | nil => intro rest _; simp [splitFields]
  | cons c a ih =>
    intro rest hc
    have hcne : c ≠ ',' := fun h => hc (h ▸ List.mem_cons_self c a)
    have hrest : ',' ∉ a := fun h => hc (List.mem_cons_of_mem c h)
    simp only [List.cons_append, splitFields, if_neg hcne, List.append_eq]
    rw [ih rest hrest]

/-- A comma-free line is a single field. -/
theorem splitFields_no_comma (a : List Char) (hc : ',' ∉ a) :
    splitFields a = [a] := by
  induction a with
  | nil => rfl
  | cons c a ih =>
    have hcne : c ≠ ',' := fun h => hc (h ▸ List.mem_cons_self c a)
    have hrest : ',' ∉ a := fun h => hc (List.mem_cons_of_mem c h)
    simp only [splitFields, if_neg hcne, ih hrest]

/-! ### The training session block of `main`

    try:
        global_step = tf.train.get_global_step(sess.graph)
        coord = tf.train.Coordinator()
        threads = tf.train.start_queue_runners(coord=coord)
        for epoch in range(flags.epochs): ...
        saver.save(sess, "{}/model.ckpt".format(flags.ckdir))
    finally:
        coord.request_stop()
        coord.join(threads)
        saver.save(sess, "{}/model.ckpt".format(flags.ckdir))
-/

/-- The observable actions of the block. -/
inductive Act where
  | bindGlobalStep
  | bindCoord
  | bindThreads
  | runTrainStep
  | runTestStep
  | requestStop
  | joinThreads
  | saveCkpt
deriving DecidableEq

/-- Number of iterations of `range(0, n, batch_size)`. -/
def numSteps (n bs : Nat) : Nat := (n + bs - 1) / bs

/-- One epoch: the training steps then the test steps. -/
def epochActs (n_train n_test bs : Nat) : List Act :=
  (List.range (numSteps n_train bs)).map (fun _ => Act.runTrainStep) ++
  (List.range (numSteps n_test bs)).map (fun _ => Act.runTestStep)

/-- The try-block body: the three setup statements binding
`global_step`, `coord` and `threads`, the epoch loop, and the final
`saver.save`. -/
def tryBody (epochs n_train n_test bs : Nat) : List Act :=
  [Act.bindGlobalStep, Act.bindCoord, Act.bindThreads] ++
  ((List.range epochs).map (fun _ => epochActs n_train n_test bs)).flatten ++
  [Act.saveCkpt]

/-- The finally clause, by Python name-binding semantics:
`coord.request_stop()` raises `NameError` when `coord` is unbound;
`coord.join(threads)` raises when `threads` is unbound; `saver.save`
runs only after both. -/
def finallyActs (coordBound threadsBound : Bool) : List Act :=
  if coordBound = false then []
  else if threadsBound = false then [Act.requestStop]
  else [Act.requestStop, Act.joinThreads, Act.saveCkpt]

/-- The executed trace of the try/finally block.  `interrupt = some k`
models an exception raised after `k` body actions have run (`coord` is
bound once `2 ≤ k`, `threads` once `3 ≤ k`); `none` is normal
completion. -/
def session_block (epochs n_train n_test bs : Nat) (interrupt : Option Nat) : List Act :=
  match interrupt with
  | none => tryBody epochs n_train n_test bs ++ finallyActs true true
  | some k =>
      (tryBody epochs n_train n_test bs).take k ++
      finallyActs (decide (2 ≤ k)) (decide (3 ≤ k))

/-- The save action never occurs inside an epoch. -/
theorem saveCkpt_not_in_epochActs (n_train n_test bs : Nat) :
    Act.saveCkpt ∉ epochActs n_train n_test bs := by
  intro h
  rcases List.mem_append.mp h with h1 | h1 <;>
    rcases List.mem_map.mp h1 with ⟨_, _, habs⟩ <;> cases habs

/-- The try-block body saves exactly once (its final action). -/
theorem count_saveCkpt_tryBody (epochs n_train n_test bs : Nat) :
    (tryBody epochs n_train n_test bs).count Act.saveCkpt = 1 := by
  have hflat : Act.saveCkpt ∉
      ((List.range epochs).map (fun _ => epochActs n_train n_test bs)).flatten := by
    intro h
    rcases List.mem_flatten.mp h with ⟨l, hl, hmem⟩
    rcases List.mem_map.mp hl with ⟨_, _, rfl⟩
    exact saveCkpt_not_in_epochActs n_train n_test bs hmem
  have h1 : tryBody epochs n_train n_test bs =
      [Act.bindGlobalStep, Act.bindCoord, Act.bindThreads] ++
      (((List.range epochs).map (fun _ => epochActs n_train n_test bs)).flatten ++
        [Act.saveCkpt]) := by simp [tryBody]
  rw [h1, List.count_append, List.count_append, List.count_eq_zero.mpr hflat]
  decide

end Kidney


/-- C1: the loss minimized by the training operation is the negation of
the `sparse_iou` evaluation metric that `main` reports as `IOU_op`, on
the same prediction and label tensors. -/
theorem claim1_loss_is_neg_metric (y_pred : Kidney.Tensor4) (y_true : Kidney.Tensor3) :
    Kidney.make_train_op_loss y_pred y_true = - Kidney.main_IOU_op y_pred y_true := rfl

/-- C3: the contracting path of `make_unet` is four conv-blocks, each
followed by a 2x2 stride-2 max-pool of its output (which feeds the next
block by the definitions of `unet_c2`..`unet_c4`); and along the
expanding path each of the four concat nodes takes a nearest-neighbor
resize as first input, each resize targets twice the height and width of
the decoder feature map it upsamples (`conv5`..`conv8`), and the skip
inputs are the contracting-path block outputs `conv4, conv3, conv2,
conv1` in that order (deepest concat first).  `T.concat` is channel-axis
(`axis=-1`) concatenation. -/
theorem claim3_unet_topology (hX wX cX : Nat) (training : Bool)
    (a : Kidney.ActFn) (classes : Nat) :
    ((Kidney.unet_c1 (Kidney.T.input hX wX cX) training).2 =
      Kidney.T.max_pool (Kidney.unet_c1 (Kidney.T.input hX wX cX) training).1 2 2 2 2 "pool_1" ∧
     (Kidney.unet_c2 (Kidney.T.input hX wX cX) training).2 =
      Kidney.T.max_pool (Kidney.unet_c2 (Kidney.T.input hX wX cX) training).1 2 2 2 2 "pool_2" ∧
     (Kidney.unet_c3 (Kidney.T.input hX wX cX) training).2 =
      Kidney.T.max_pool (Kidney.unet_c3 (Kidney.T.input hX wX cX) training).1 2 2 2 2 "pool_3" ∧
     (Kidney.unet_c4 (Kidney.T.input hX wX cX) training).2 =
      Kidney.T.max_pool (Kidney.unet_c4 (Kidney.T.input hX wX cX) training).1 2 2 2 2 "pool_4") ∧
    Kidney.spineConcatOfResize (Kidney.make_unet (Kidney.T.input hX wX cX) training a classes) =
      [true, true, true, true] ∧
    Kidney.spineUps (Kidney.make_unet (Kidney.T.input hX wX cX) training a classes) =
      [(Kidney.unet_conv5 (Kidney.T.input hX wX cX) training,
        (Kidney.shape (Kidney.unet_conv5 (Kidney.T.input hX wX cX) training)).1 * 2,
        (Kidney.shape (Kidney.unet_conv5 (Kidney.T.input hX wX cX) training)).2.1 * 2),
       (Kidney.unet_conv6 (Kidney.T.input hX wX cX) training,
        (Kidney.shape (Kidney.unet_conv6 (Kidney.T.input hX wX cX) training)).1 * 2,
        (Kidney.shape (Kidney.unet_conv6 (Kidney.T.input hX wX cX) training)).2.1 * 2),
       (Kidney.unet_conv7 (Kidney.T.input hX wX cX) training,
        (Kidney.shape (Kidney.unet_conv7 (Kidney.T.input hX wX cX) training)).1 * 2,
        (Kidney.shape (Kidney.unet_conv7 (Kidney.T.input hX wX cX) training)).2.1 * 2),
       (Kidney.unet_conv8 (Kidney.T.input hX wX cX) training,
        (Kidney.shape (Kidney.unet_conv8 (Kidney.T.input hX wX cX) training)).1 * 2,
        (Kidney.shape (Kidney.unet_conv8 (Kidney.T.input hX wX cX) training)).2.1 * 2)] ∧
    Kidney.spineSkips (Kidney.make_unet (Kidney.T.input hX wX cX) training a classes) =
      [(Kidney.unet_c4 (Kidney.T.input hX wX cX) training).1, (Kidney.unet_c3 (Kidney.T.input hX wX cX) training).1,
       (Kidney.unet_c2 (Kidney.T.input hX wX cX) training).1, (Kidney.unet_c1 (Kidney.T.input hX wX cX) training).1] := by
  refine ⟨⟨rfl, rfl, rfl, rfl⟩, ?_, ?_, ?_⟩ <;> rfl

/-- C4: a conv-block built by `conv_conv_pool` on a two-element filter
list applies, twice, convolution then batch normalization then the
activation, in that order; with `pool=True` it additionally returns the
2x2 stride-2 max-pool of the final activation. -/
theorem claim4_conv_block (x : Kidney.T) (F1 F2 : Nat) (training : Bool)
    (nm : String) (a : Kidney.ActFn) :
    Kidney.conv_conv_pool x [F1, F2] training nm false a =
      Sum.inl (Kidney.T.actApp a
        (Kidney.T.batch_norm
          (Kidney.T.conv2d
            (Kidney.T.actApp a
              (Kidney.T.batch_norm
                (Kidney.T.conv2d x F1 3 3 none true "conv_1")
                training "bn_1")
              ("relu" ++ nm ++ "_" ++ toString 1))
            F2 3 3 none true "conv_2")
          training "bn_2")
        ("relu" ++ nm ++ "_" ++ toString 2)) ∧
    Kidney.conv_conv_pool x [F1, F2] training nm true a =
      Sum.inr (Kidney.T.actApp a
        (Kidney.T.batch_norm
          (Kidney.T.conv2d
            (Kidney.T.actApp a
              (Kidney.T.batch_norm
                (Kidney.T.conv2d x F1 3 3 none true "conv_1")
                training "bn_1")
              ("relu" ++ nm ++ "_" ++ toString 1))
            F2 3 3 none true "conv_2")
          training "bn_2")
        ("relu" ++ nm ++ "_" ++ toString 2),
        Kidney.T.max_pool
          (Kidney.T.actApp a
            (Kidney.T.batch_norm
              (Kidney.T.conv2d
                (Kidney.T.actApp a
                  (Kidney.T.batch_norm
                    (Kidney.T.conv2d x F1 3 3 none true "conv_1")
                    training "bn_1")
                  ("relu" ++ nm ++ "_" ++ toString 1))
                F2 3 3 none true "conv_2")
              training "bn_2")
            ("relu" ++ nm ++ "_" ++ toString 2))
          2 2 2 2 ("pool_" ++ nm)) := by
  exact ⟨rfl, rfl⟩

/-- C2 counterexample: on the one-image batch with predicted mask
`[1, 0]` and ground-truth mask `[1, 1]`, the spec's mean
intersection-over-union is `1/2` but `IOU_` returns
`(2·1 + 1e-7)/(1 + 2 + 1e-7) = 20000001/30000001`, so `IOU_` is not the
mean of (area of intersection)/(area of union). -/
theorem claim2_counterexample :
    Kidney.IOU_ [[[1, 0]]] [[[1, 1]]] ≠
      Kidney.spec_batch_mean_IOU [[[1, 0]]] [[[1, 1]]] := by
  simp only [Kidney.IOU_, Kidney.spec_batch_mean_IOU, Kidney.reduceMean,
    Kidney.dotRow, Kidney.flat, Kidney.interArea, Kidney.unionArea, Kidney.eps]
  norm_num

/-- C2 amended: on binary masks, `IOU_` is the mean over the batch of the
smoothed Sørensen–Dice quotient
`(2·(area of intersection) + 1e-7) / (area(pred) + area(true) + 1e-7)`,
with the sum of the two mask areas in the denominator, not the area of
the union. -/
theorem claim2_dice (y_pred y_true : Kidney.Tensor3)
    (hp : Kidney.IsBinary y_pred) (ht : Kidney.IsBinary y_true) :
    Kidney.IOU_ y_pred y_true =
      Kidney.reduceMean (List.zipWith
        (fun p t => (2 * Kidney.interArea (Kidney.flat p) (Kidney.flat t) + Kidney.eps) /
          (Kidney.maskArea (Kidney.flat p) + Kidney.maskArea (Kidney.flat t) + Kidney.eps))
        y_pred y_true) := by
  unfold Kidney.IOU_
  rw [Kidney.zipWith_dice_eq y_pred y_true hp ht]

/-- C2 amended witness: the amended Dice characterization instantiated at
the concrete binary batch of the counterexample. -/
theorem claim2_dice_witness :
    Kidney.IsBinary [[[1, 0]]] ∧ Kidney.IsBinary [[[1, 1]]] ∧
      Kidney.IOU_ [[[1, 0]]] [[[1, 1]]] =
        Kidney.reduceMean (List.zipWith
          (fun p t => (2 * Kidney.interArea (Kidney.flat p) (Kidney.flat t) + Kidney.eps) /
            (Kidney.maskArea (Kidney.flat p) + Kidney.maskArea (Kidney.flat t) + Kidney.eps))
          [[[1, 0]]] [[[1, 1]]]) :=
  ⟨by unfold Kidney.IsBinary; decide, by unfold Kidney.IsBinary; decide,
    claim2_dice [[[1, 0]]] [[[1, 1]]]
      (by unfold Kidney.IsBinary; decide) (by unfold Kidney.IsBinary; decide)⟩

/-- C7 counterexample: at flags `height = w = 24`, `channels = 1`, the
graph `main` builds is rejected by the concat shape check (TensorFlow
raises at `tf.concat` because the upsampled bottleneck and `conv4`
disagree on height), so the network output does not preserve the input
height and width for every flags value. -/
theorem claim7_counterexample :
    Kidney.wellFormed (Kidney.main_pred 24 24 1 true) = false ∧
    Kidney.shape (Kidney.main_pred 24 24 1 true) ≠ (24, 24, 1) := by
  constructor
  · decide
  · decide

/-- C7 amended: `main` selects softmax as final activation exactly when
`flags.channels > 1` and sigmoid exactly when `flags.channels <= 1`; and
whenever the input height and width are (positive) multiples of 16 —
as the default `256x256` is — the graph is well-formed and the network
output preserves the input height and width with `flags.channels`
channels per pixel. -/
theorem claim7_activation_and_shape (channels k m : Nat) (mode : Bool)
    (hk : 1 ≤ k) (hm : 1 ≤ m) :
    (Kidney.main_activation channels = Kidney.ActFn.softmax ↔ 1 < channels) ∧
    (Kidney.main_activation channels = Kidney.ActFn.sigmoid ↔ channels ≤ 1) ∧
    Kidney.wellFormed (Kidney.main_pred (16*k) (16*m) channels mode) = true ∧
    Kidney.shape (Kidney.main_pred (16*k) (16*m) channels mode) =
      (16*k, 16*m, channels) := by
  refine ⟨?_, ?_, ?_⟩
  · by_cases hc : 1 < channels <;> simp [Kidney.main_activation, hc]
  · by_cases hc : 1 < channels
    · simp [Kidney.main_activation, hc]
    · simp [Kidney.main_activation, hc]; omega
  ·
    set X := Kidney.T.input (16*k) (16*m) 3 with hX
    have e0 : Kidney.shape (Kidney.unet_net X) = (16*k, 16*m, 3) := by
      simp [Kidney.unet_net, Kidney.shape, hX, Prod.ext_iff]; omega
    have w0 : Kidney.wellFormed (Kidney.unet_net X) = true := rfl
    have b1 : (Kidney.unet_c1 X mode).1 = Kidney.convLayers (Kidney.unet_net X) [8, 8] mode "1" .relu 0 := rfl
    have p1 : (Kidney.unet_c1 X mode).2 = Kidney.T.max_pool ((Kidney.unet_c1 X mode).1) 2 2 2 2 "pool_1" := rfl
    have e1 : Kidney.shape ((Kidney.unet_c1 X mode).1) = (16*k, 16*m, 8) := by
      rw [b1, Kidney.shape_convLayers2, e0]
    have w1 : Kidney.wellFormed ((Kidney.unet_c1 X mode).1) = true := by
      rw [b1, Kidney.wf_convLayers2, w0]
    have e1p : Kidney.shape ((Kidney.unet_c1 X mode).2) = (8*k, 8*m, 8) := by
      rw [p1, Kidney.shape_pool, e1]; simp [Prod.ext_iff]; omega
    have w1p : Kidney.wellFormed ((Kidney.unet_c1 X mode).2) = true := by
      rw [p1, Kidney.wf_pool, e1, w1]; simp; omega
    have b2 : (Kidney.unet_c2 X mode).1 = Kidney.convLayers (Kidney.unet_c1 X mode).2 [16, 16] mode "2" .relu 0 := rfl
    have p2 : (Kidney.unet_c2 X mode).2 = Kidney.T.max_pool ((Kidney.unet_c2 X mode).1) 2 2 2 2 "pool_2" := rfl
    have e2 : Kidney.shape ((Kidney.unet_c2 X mode).1) = (8*k, 8*m, 16) := by
      rw [b2, Kidney.shape_convLayers2, e1p]
    have w2 : Kidney.wellFormed ((Kidney.unet_c2 X mode).1) = true := by
      rw [b2, Kidney.wf_convLayers2, w1p]
    have e2p : Kidney.shape ((Kidney.unet_c2 X mode).2) = (4*k, 4*m, 16) := by
      rw [p2, Kidney.shape_pool, e2]; simp [Prod.ext_iff]; omega
    have w2p : Kidney.wellFormed ((Kidney.unet_c2 X mode).2) = true := by
      rw [p2, Kidney.wf_pool, e2, w2]; simp; omega
    have b3 : (Kidney.unet_c3 X mode).1 = Kidney.convLayers (Kidney.unet_c2 X mode).2 [32, 32] mode "3" .relu 0 := rfl
    have p3 : (Kidney.unet_c3 X mode).2 = Kidney.T.max_pool ((Kidney.unet_c3 X mode).1) 2 2 2 2 "pool_3" := rfl
    have e3 : Kidney.shape ((Kidney.unet_c3 X mode).1) = (4*k, 4*m, 32) := by
      rw [b3, Kidney.shape_convLayers2, e2p]
    have w3 : Kidney.wellFormed ((Kidney.unet_c3 X mode).1) = true := by
      rw [b3, Kidney.wf_convLayers2, w2p]
    have e3p : Kidney.shape ((Kidney.unet_c3 X mode).2) = (2*k, 2*m, 32) := by
      rw [p3, Kidney.shape_pool, e3]; simp [Prod.ext_iff]; omega
    have w3p : Kidney.wellFormed ((Kidney.unet_c3 X mode).2) = true := by
      rw [p3, Kidney.wf_pool, e3, w3]; simp; omega
    have b4 : (Kidney.unet_c4 X mode).1 = Kidney.convLayers (Kidney.unet_c3 X mode).2 [64, 64] mode "4" .relu 0 := rfl
    have p4 : (Kidney.unet_c4 X mode).2 = Kidney.T.max_pool ((Kidney.unet_c4 X mode).1) 2 2 2 2 "pool_4" := rfl
    have e4 : Kidney.shape ((Kidney.unet_c4 X mode).1) = (2*k, 2*m, 64) := by
      rw [b4, Kidney.shape_convLayers2, e3p]
    have w4 : Kidney.wellFormed ((Kidney.unet_c4 X mode).1) = true := by
      rw [b4, Kidney.wf_convLayers2, w3p]
    have e4p : Kidney.shape ((Kidney.unet_c4 X mode).2) = (k, m, 64) := by
      rw [p4, Kidney.shape_pool, e4]; simp [Prod.ext_iff]; omega
    have w4p : Kidney.wellFormed ((Kidney.unet_c4 X mode).2) = true := by
      rw [p4, Kidney.wf_pool, e4, w4]; simp; omega
    have b5 : Kidney.unet_conv5 X mode = Kidney.convLayers (Kidney.unet_c4 X mode).2 [128, 128] mode "5" .relu 0 := rfl
    have e5 : Kidney.shape (Kidney.unet_conv5 X mode) = (k, m, 128) := by
      rw [b5, Kidney.shape_convLayers2, e4p]
    have w5 : Kidney.wellFormed (Kidney.unet_conv5 X mode) = true := by
      rw [b5, Kidney.wf_convLayers2, w4p]
    have u6 : Kidney.shape (Kidney.upsample_concat (Kidney.unet_conv5 X mode) (Kidney.unet_c4 X mode).1 "6") = (2*k, 2*m, 192) := by
      rw [Kidney.shape_up_concat, e5, e4]; simp [Prod.ext_iff]; omega
    have uw6 : Kidney.wellFormed (Kidney.upsample_concat (Kidney.unet_conv5 X mode) (Kidney.unet_c4 X mode).1 "6") = true := by
      rw [Kidney.wf_up_concat, e5, e4, w5, w4]; simp; omega
    have b6 : Kidney.unet_conv6 X mode = Kidney.convLayers (Kidney.upsample_concat (Kidney.unet_conv5 X mode) (Kidney.unet_c4 X mode).1 "6") [64, 64] mode "6" .relu 0 := rfl
    have e6 : Kidney.shape (Kidney.unet_conv6 X mode) = (2*k, 2*m, 64) := by
      rw [b6, Kidney.shape_convLayers2, u6]
    have w6 : Kidney.wellFormed (Kidney.unet_conv6 X mode) = true := by
      rw [b6, Kidney.wf_convLayers2, uw6]
    have u7 : Kidney.shape (Kidney.upsample_concat (Kidney.unet_conv6 X mode) (Kidney.unet_c3 X mode).1 "7") = (4*k, 4*m, 96) := by
      rw [Kidney.shape_up_concat, e6, e3]; simp [Prod.ext_iff]; omega
    have uw7 : Kidney.wellFormed (Kidney.upsample_concat (Kidney.unet_conv6 X mode) (Kidney.unet_c3 X mode).1 "7") = true := by
      rw [Kidney.wf_up_concat, e6, e3, w6, w3]; simp; omega
    have b7 : Kidney.unet_conv7 X mode = Kidney.convLayers (Kidney.upsample_concat (Kidney.unet_conv6 X mode) (Kidney.unet_c3 X mode).1 "7") [32, 32] mode "7" .relu 0 := rfl
    have e7 : Kidney.shape (Kidney.unet_conv7 X mode) = (4*k, 4*m, 32) := by
      rw [b7, Kidney.shape_convLayers2, u7]
    have w7 : Kidney.wellFormed (Kidney.unet_conv7 X mode) = true := by
      rw [b7, Kidney.wf_convLayers2, uw7]
    have u8 : Kidney.shape (Kidney.upsample_concat (Kidney.unet_conv7 X mode) (Kidney.unet_c2 X mode).1 "8") = (8*k, 8*m, 48) := by
      rw [Kidney.shape_up_concat, e7, e2]; simp [Prod.ext_iff]; omega
    have uw8 : Kidney.wellFormed (Kidney.upsample_concat (Kidney.unet_conv7 X mode) (Kidney.unet_c2 X mode).1 "8") = true := by
      rw [Kidney.wf_up_concat, e7, e2, w7, w2]; simp; omega
    have b8 : Kidney.unet_conv8 X mode = Kidney.convLayers (Kidney.upsample_concat (Kidney.unet_conv7 X mode) (Kidney.unet_c2 X mode).1 "8") [16, 16] mode "8" .relu 0 := rfl
    have e8 : Kidney.shape (Kidney.unet_conv8 X mode) = (8*k, 8*m, 16) := by
      rw [b8, Kidney.shape_convLayers2, u8]
    have w8 : Kidney.wellFormed (Kidney.unet_conv8 X mode) = true := by
      rw [b8, Kidney.wf_convLayers2, uw8]
    have u9 : Kidney.shape (Kidney.upsample_concat (Kidney.unet_conv8 X mode) (Kidney.unet_c1 X mode).1 "9") = (16*k, 16*m, 24) := by
      rw [Kidney.shape_up_concat, e8, e1]; simp [Prod.ext_iff]; omega
    have uw9 : Kidney.wellFormed (Kidney.upsample_concat (Kidney.unet_conv8 X mode) (Kidney.unet_c1 X mode).1 "9") = true := by
      rw [Kidney.wf_up_concat, e8, e1, w8, w1]; simp; omega
    have b9 : Kidney.main_pred (16*k) (16*m) channels mode = Kidney.T.conv2d (Kidney.convLayers (Kidney.upsample_concat (Kidney.unet_conv8 X mode) (Kidney.unet_c1 X mode).1 "9") [8, 8] mode "9" .relu 0) channels 1 1 (some (Kidney.main_activation channels)) true "final" := rfl
    have e9 : Kidney.shape (Kidney.convLayers (Kidney.upsample_concat (Kidney.unet_conv8 X mode) (Kidney.unet_c1 X mode).1 "9") [8, 8] mode "9" .relu 0) = (16*k, 16*m, 8) := by
      rw [Kidney.shape_convLayers2, u9]
    have w9 : Kidney.wellFormed (Kidney.convLayers (Kidney.upsample_concat (Kidney.unet_conv8 X mode) (Kidney.unet_c1 X mode).1 "9") [8, 8] mode "9" .relu 0) = true := by
      rw [Kidney.wf_convLayers2, uw9]
    constructor
    · rw [b9, Kidney.wf_conv, w9]
    · rw [b9, Kidney.shape_conv_same, e9]

/-- C7 amended witness: the activation/shape theorem at the default
flags `channels = 5`, `height = w = 256 = 16*16`. -/
theorem claim7_activation_and_shape_witness :
    1 ≤ 16 ∧
    ((Kidney.main_activation 5 = Kidney.ActFn.softmax ↔ 1 < 5) ∧
     (Kidney.main_activation 5 = Kidney.ActFn.sigmoid ↔ 5 ≤ 1) ∧
     Kidney.wellFormed (Kidney.main_pred (16*16) (16*16) 5 true) = true ∧
     Kidney.shape (Kidney.main_pred (16*16) (16*16) 5 true) = (16*16, 16*16, 5)) :=
  ⟨by decide, claim7_activation_and_shape 5 16 16 true (by decide) (by decide)⟩

/-- C8: the left-right flip in `image_augmentation` is computed and
discarded — the up-down flip is applied to the original concatenation —
so the outputs are independent of the sampled left-right flip bit and
equal the pipeline that only up-down-flips the concatenated input
(while an actual left-right flip does change a tensor). -/
theorem claim8_lr_flip_discarded (random_hue : Kidney.Img → ℚ → Kidney.Img)
    (image mask : Kidney.Img) (flip_lr flip_lr' flip_ud : Bool) (delta_b delta_h : ℚ) :
    Kidney.image_augmentation random_hue image mask flip_lr flip_ud delta_b delta_h =
      Kidney.image_augmentation random_hue image mask flip_lr' flip_ud delta_b delta_h ∧
    Kidney.image_augmentation random_hue image mask flip_lr flip_ud delta_b delta_h =
      (random_hue (Kidney.random_brightness
        (Kidney.sliceImage
          (Kidney.random_flip_up_down (Kidney.tf_concat_channels image mask) flip_ud))
        delta_b) delta_h,
       Kidney.sliceMask
        (Kidney.random_flip_up_down (Kidney.tf_concat_channels image mask) flip_ud)) ∧
    Kidney.random_flip_left_right [[[0], [1]]] true ≠ [[[0], [1]]] :=
  ⟨rfl, rfl, by decide⟩

/-- C9: for aligned inputs (same grid, one-channel mask),
`image_augmentation` applies the same up-down flip (same sampled bit) to
the returned image and mask, and the brightness and hue adjustments
touch only the image: the returned mask is exactly the flipped input
mask, with its pixel values untouched. -/
theorem claim9_mask_aligned_unchanged (random_hue : Kidney.Img → ℚ → Kidney.Img)
    (image mask : Kidney.Img) (flip_lr flip_ud : Bool) (delta_b delta_h : ℚ)
    (hal : Kidney.Aligned image mask) :
    Kidney.image_augmentation random_hue image mask flip_lr flip_ud delta_b delta_h =
      (random_hue (Kidney.random_brightness
        (Kidney.random_flip_up_down image flip_ud) delta_b) delta_h,
       Kidney.random_flip_up_down mask flip_ud) := by
  obtain ⟨hf, hone⟩ := hal
  simp only [Kidney.image_augmentation, Kidney.random_flip_left_right]
  rw [Kidney.sliceImage_flip_ud, Kidney.sliceMask_flip_ud,
    Kidney.sliceImage_concat image mask hf hone,
    Kidney.sliceMask_concat image mask hf hone]

/-- C9 witness: the alignment theorem at a concrete one-pixel image and
mask, with the hue adjustment instantiated to the identity. -/
theorem claim9_mask_aligned_unchanged_witness :
    Kidney.Aligned [[[1, 2, 3]]] [[[4]]] ∧
    Kidney.image_augmentation (fun i _ => i) [[[1, 2, 3]]] [[[4]]] true true (1/2) (1/3) =
      ((fun (i : Kidney.Img) (_ : ℚ) => i)
        (Kidney.random_brightness (Kidney.random_flip_up_down [[[1, 2, 3]]] true) (1/2)) (1/3),
       Kidney.random_flip_up_down [[[4]]] true) :=
  ⟨⟨List.Forall₂.cons (by decide) List.Forall₂.nil, by decide⟩,
   claim9_mask_aligned_unchanged (fun i _ => i) [[[1, 2, 3]]] [[[4]]] true true (1/2) (1/3)
     ⟨List.Forall₂.cons (by decide) List.Forall₂.nil, by decide⟩⟩

/-- C5 counterexample: when the checkpoint directory exists, is
non-empty, and holds no checkpoint, the branch suppresses the `OSError`
of `os.rmdir` but then `os.mkdir` raises an unhandled
`FileExistsError` — the directory is not (re)created, contradicting
"the directory is then created". -/
theorem claim5_counterexample :
    Kidney.checkpoint_branch ⟨true, false, false, none⟩ =
      Except.error Kidney.Exc.fileExists := rfl

/-- C5 amended: the branch restores the latest checkpoint when the
directory exists with a checkpoint (doing nothing when
`latest_checkpoint` is `None`); otherwise it attempts `os.rmdir`,
catching and ignoring exactly `FileNotFoundError` and `OSError`, and
then `os.mkdir`: the directory is created when it was absent or empty,
while an existing non-empty directory makes `os.mkdir` raise an
unhandled `FileExistsError`. -/
theorem claim5_checkpoint_branch (s : Kidney.CkState) :
    Kidney.checkpoint_branch s =
      (if s.dirExists && s.ckpt then
         match s.latest with
         | some p => Except.ok (some p, s)
         | none => Except.ok (none, s)
       else if s.dirExists && !s.dirEmpty then Except.error Kidney.Exc.fileExists
       else Except.ok (none, { s with dirExists := true, dirEmpty := true })) := by
  rcases s with ⟨de, dem, ck, lat⟩
  cases de <;> cases dem <;> cases ck <;> rfl

/-- C6: the data interface is a CSV of image/mask path pairs:
the reader skips exactly one header line; a record made of two
comma-free fields decodes to those two fields (empty fields falling
back to the empty-string defaults), both paths are prefixed with
`data_root`, the first file is decoded with 3 channels and the second
with 1; a record without exactly two fields fails to decode. -/
theorem claim6_csv_pipeline (lines : List (List Char)) (root a b : List Char)
    (read_file : List Char → List Nat) (img_decoder : List Nat → Nat → Kidney.Img)
    (hue : Kidney.Img → ℚ → Kidney.Img) (lr ud : Bool) (db dh : ℚ)
    (ha : ',' ∉ a) (hb : ',' ∉ b) :
    Kidney.csvRecords lines = lines.drop 1 ∧
    Kidney.get_image_mask read_file img_decoder root false hue lr ud db dh
        (a ++ ',' :: b) =
      some (img_decoder (read_file (root ++ a)) 3,
            img_decoder (read_file (root ++ b)) 1) ∧
    Kidney.get_image_mask read_file img_decoder root false hue lr ud db dh
        ['x'] = none ∧
    Kidney.get_image_mask read_file img_decoder root false hue lr ud db dh
        ['x', ',', 'y', ',', 'z'] = none := by
  refine ⟨rfl, ?_, rfl, rfl⟩
  unfold Kidney.get_image_mask Kidney.decode_csv2
  rw [Kidney.splitFields_append a b ha, Kidney.splitFields_no_comma b hb]
  by_cases haa : a = [] <;> by_cases hbb : b = [] <;> simp [haa, hbb]

/-- C6 witness: the pipeline theorem at the concrete record
`"i.p,m.p"` with `data_root = "r/"`, a decoder returning the requested
channel count, and a trivial file reader. -/
theorem claim6_csv_pipeline_witness :
    (',' ∉ ['i', '.', 'p']) ∧ (',' ∉ ['m', '.', 'p']) ∧
    (Kidney.csvRecords [['h'], ['x']] = [['h'], ['x']].drop 1 ∧
     Kidney.get_image_mask (fun _ => []) (fun _ n => [[[(n : ℚ)]]]) ['r', '/']
        false (fun i _ => i) true true 0 0
        (['i', '.', 'p'] ++ ',' :: ['m', '.', 'p']) =
      some ((fun (_ : List Nat) (n : Nat) => [[[(n : ℚ)]]])
              ((fun (_ : List Char) => ([] : List Nat)) (['r', '/'] ++ ['i', '.', 'p'])) 3,
            (fun (_ : List Nat) (n : Nat) => [[[(n : ℚ)]]])
              ((fun (_ : List Char) => ([] : List Nat)) (['r', '/'] ++ ['m', '.', 'p'])) 1) ∧
     Kidney.get_image_mask (fun _ => []) (fun _ n => [[[(n : ℚ)]]]) ['r', '/']
        false (fun i _ => i) true true 0 0 ['x'] = none ∧
     Kidney.get_image_mask (fun _ => []) (fun _ n => [[[(n : ℚ)]]]) ['r', '/']
        false (fun i _ => i) true true 0 0 ['x', ',', 'y', ',', 'z'] = none) :=
  ⟨by decide, by decide,
   claim6_csv_pipeline [['h'], ['x']] ['r', '/'] ['i', '.', 'p'] ['m', '.', 'p']
     (fun _ => []) (fun _ n => [[[(n : ℚ)]]]) (fun i _ => i) true true 0 0
     (by decide) (by decide)⟩

/-- C10 counterexample: if an exception interrupts the try block after
two body actions (i.e. inside `threads = tf.train.start_queue_runners`,
before `threads` is bound), the finally clause runs
`coord.request_stop()` but `coord.join(threads)` raises `NameError`, so
no checkpoint is saved — the claim's "a checkpoint is still written on
an exception" fails for exceptions in the setup statements. -/
theorem claim10_counterexample :
    Kidney.session_block 8 100 10 16 (some 2) =
      [Kidney.Act.bindGlobalStep, Kidney.Act.bindCoord, Kidney.Act.requestStop] ∧
    Kidney.Act.saveCkpt ∉ Kidney.session_block 8 100 10 16 (some 2) := by
  constructor
  · decide
  · decide

/-- C10 amended: on normal completion the finally clause appends
request-stop, thread-join and a save to the body (whose last action is
itself a save), so the checkpoint is saved exactly twice; and on an
exception raised after the three setup statements have bound `coord`
and `threads` (`interrupt = k + 3`), the finally clause still runs
request-stop, join and a save, so a checkpoint is written. -/
theorem claim10_finally (epochs n_train n_test bs k : Nat) :
    Kidney.session_block epochs n_train n_test bs none =
      Kidney.tryBody epochs n_train n_test bs ++
        [Kidney.Act.requestStop, Kidney.Act.joinThreads, Kidney.Act.saveCkpt] ∧
    (Kidney.session_block epochs n_train n_test bs none).count Kidney.Act.saveCkpt = 2 ∧
    Kidney.session_block epochs n_train n_test bs (some (k + 3)) =
      (Kidney.tryBody epochs n_train n_test bs).take (k + 3) ++
        [Kidney.Act.requestStop, Kidney.Act.joinThreads, Kidney.Act.saveCkpt] ∧
    Kidney.Act.saveCkpt ∈ Kidney.session_block epochs n_train n_test bs (some (k + 3)) := by
  have hd2 : decide (2 ≤ k + 3) = true := decide_eq_true (by omega)
  have hd3 : decide (3 ≤ k + 3) = true := decide_eq_true (by omega)
  have hsome : Kidney.session_block epochs n_train n_test bs (some (k + 3)) =
      (Kidney.tryBody epochs n_train n_test bs).take (k + 3) ++
        [Kidney.Act.requestStop, Kidney.Act.joinThreads, Kidney.Act.saveCkpt] := by
    rw [show Kidney.session_block epochs n_train n_test bs (some (k + 3)) =
        (Kidney.tryBody epochs n_train n_test bs).take (k + 3) ++
          Kidney.finallyActs (decide (2 ≤ k + 3)) (decide (3 ≤ k + 3)) from rfl,
      hd2, hd3]
    rfl
  refine ⟨rfl, ?_, hsome, ?_⟩
  · rw [show Kidney.session_block epochs n_train n_test bs none =
        Kidney.tryBody epochs n_train n_test bs ++
          [Kidney.Act.requestStop, Kidney.Act.joinThreads, Kidney.Act.saveCkpt] from rfl,
      List.count_append, Kidney.count_saveCkpt_tryBody]
    decide
  · rw [hsome]
    simp
